import Mathlib

/-!
Verification of the semver range parser (src/range.rs and the spec of its
lexer/parser collaborators).

The repository provides src/range.rs: the data model (VersionReq,
WildcardVersion, Op, Predicate), the FromStr instance for Op, and the two
entry points parse_predicate and parse.  The Lexer, the Parser type with its
methods (new, predicate, range, is_eof, tail), the error type, and the
Identifier type live in files of the repository that are not part of src/
and are modelled here from the specification, marked as such.

Machine integers: the code uses u64 for the numeric fields; we use Nat with
an explicit bound 2 ^ 64, checked at the single point where a digit run is
converted to a number, matching the spec (digit runs are captured with
their span and the conversion with overflow detection happens in the
parser).
-/

/-- Modelled from the spec: the external Identifier type (version.rs is not
part of src/), a pre-release segment that is either numeric or
alphanumeric.  Constructor names follow the uses in range.rs tests
(Identifier::AlphaNumeric, Identifier::Numeric). -/
inductive Identifier where
  | Numeric (n : Nat)
  | AlphaNumeric (s : String)
deriving DecidableEq, Repr

/-- Enum representing a wildcard version part (src/range.rs, WildcardVersion). -/
inductive WildcardVersion where
  | Minor
  | Patch
deriving DecidableEq, Repr

/-- Enum representing the operation in a Predicate (src/range.rs, Op). -/
inductive Op where
  | Ex
  | Gt
  | GtEq
  | Lt
  | LtEq
  | Tilde
  | Compatible
  | Wildcard (w : WildcardVersion)
deriving DecidableEq, Repr

/-- FromStr for Op (src/range.rs, Op::from_str): a match on exactly the
seven operator strings, everything else an error. -/
def Op.from_str (s : String) : Except String Op :=
  if s = "=" then .ok Op.Ex
  else if s = ">" then .ok Op.Gt
  else if s = ">=" then .ok Op.GtEq
  else if s = "<" then .ok Op.Lt
  else if s = "<=" then .ok Op.LtEq
  else if s = "~" then .ok Op.Tilde
  else if s = "^" then .ok Op.Compatible
  else .error ("Could not parse Op")

/-- Struct representing a version comparison predicate (src/range.rs,
Predicate): an operation plus major, optional minor, optional patch and the
pre-release identifiers.  There is no field for build metadata. -/
structure Predicate where
  op : Op
  major : Nat
  minor : Option Nat
  patch : Option Nat
  pre : List Identifier
deriving DecidableEq, Repr

/-- Struct holding the collection of predicates (src/range.rs, VersionReq). -/
structure VersionReq where
  predicates : List Predicate
deriving DecidableEq, Repr

/-- Modelled from the spec: the token kinds produced by the lexer (the
lexer file is not part of src/).  Comparator spellings, dot, comma, hyphen,
plus, whitespace, a digit run kept with its exact span for later
conversion, an alphanumeric run, the wildcard markers (one kind, spelling
retained), and an explicit unexpected-character record so the lexer is
total. -/
inductive Token where
  | eq
  | gt
  | gtEq
  | lt
  | ltEq
  | tilde
  | caret
  | dot
  | comma
  | hyphen
  | plus
  | whitespace
  | numeric (s : String)
  | alphaNum (s : String)
  | wildcard (s : String)
  | unexpected (c : Char)
deriving DecidableEq, Repr

/-- Modelled from the spec: the parse error taxonomy (the parser file is
not part of src/): unexpected end of input, unexpected token, trailing
input after an otherwise-successful parse, numeric overflow for a given
digit run, empty input. -/
inductive Err where
  | unexpectedEnd
  | unexpectedToken (t : Token)
  | moreInput (tail : List Token)
  | overflow (s : String)
  | emptyInput
deriving DecidableEq, Repr

/-- Decimal digit characters. -/
def isDigitChar (c : Char) : Bool :=
  '0' ≤ c && c ≤ '9'

/-- ASCII letters. -/
def isAlphaChar (c : Char) : Bool :=
  ('a' ≤ c && c ≤ 'z') || ('A' ≤ c && c ≤ 'Z')

/-- Characters forming alphanumeric component runs. -/
def isAlphaNumChar (c : Char) : Bool :=
  isDigitChar c || isAlphaChar c

/-- Whitespace characters. -/
def isWsChar (c : Char) : Bool :=
  c = ' ' || c = '\t' || c = '\n' || c = '\r'

/-- Value of a decimal digit character. -/
def digitVal (c : Char) : Nat :=
  c.toNat - 48

/-- Decimal value of a digit run. -/
def valDigits (cs : List Char) : Nat :=
  cs.foldl (fun a c => a * 10 + digitVal c) 0

/-- Decimal value of a digit run given as a string span. -/
def valDigitsS (s : String) : Nat :=
  valDigits s.data

/-- Modelled from the spec: classification of a completed alphanumeric run:
the wildcard spellings x and X are a wildcard token (spelling retained),
an all-digit run is a numeric token carrying its exact span, anything else
an alphanumeric token. -/
def classifyRun (run : List Char) : Token :=
  if run = ['x'] then Token.wildcard ("x")
  else if run = ['X'] then Token.wildcard ("X")
  else if run.all isDigitChar then Token.numeric ⟨run⟩
  else Token.alphaNum ⟨run⟩

/-- Modelled from the spec: emit the pending alphanumeric run (if any) in
front of the given tokens.  The accumulator holds the run reversed. -/
def flushRun (racc : List Char) (toks : List Token) : List Token :=
  match racc with
  | [] => toks
  | _ :: _ => classifyRun racc.reverse :: toks

/-- Modelled from the spec: classification of a single non-alphanumeric
character: whitespace, the one-character comparators, the star wildcard,
the separators, or an explicit unexpected-character record keeping the
lexer total. -/
def simpleTok (c : Char) : Token :=
  if isWsChar c then Token.whitespace
  else if c = '=' then Token.eq
  else if c = '>' then Token.gt
  else if c = '<' then Token.lt
  else if c = '~' then Token.tilde
  else if c = '^' then Token.caret
  else if c = '*' then Token.wildcard ("*")
  else if c = '.' then Token.dot
  else if c = ',' then Token.comma
  else if c = '-' then Token.hyphen
  else if c = '+' then Token.plus
  else Token.unexpected c

/-- Modelled from the spec: the lexer loop.  Total: it classifies every
character instead of failing.  Alphanumeric characters are accumulated
into a single run token; the two-character comparators are recognized
first by one character of lookahead. -/
def lexAcc (racc : List Char) : List Char → List Token
  | [] => flushRun racc []
  | '>' :: '=' :: rest => flushRun racc (Token.gtEq :: lexAcc [] rest)
  | '<' :: '=' :: rest => flushRun racc (Token.ltEq :: lexAcc [] rest)
  | c :: rest =>
    if isAlphaNumChar c then
      lexAcc (c :: racc) rest
    else
      flushRun racc (simpleTok c :: lexAcc [] rest)

/-- Modelled from the spec: tokenize a whole character list. -/
def lexChars (cs : List Char) : List Token :=
  lexAcc [] cs

/-- True for a whitespace token. -/
def isWsTok : Token → Bool
  | Token.whitespace => true
  | _ => false

/-- Modelled from the spec: skip any run of whitespace tokens. -/
def skipWsToks (ts : List Token) : List Token :=
  ts.dropWhile isWsTok

/-- Modelled from the spec: parse an optional leading comparator, default
Compatible; a matched comparator consumes following whitespace. -/
def parseOp (ts : List Token) : Op × List Token :=
  match ts with
  | Token.eq :: tr => (Op.Ex, skipWsToks tr)
  | Token.gt :: tr => (Op.Gt, skipWsToks tr)
  | Token.gtEq :: tr => (Op.GtEq, skipWsToks tr)
  | Token.lt :: tr => (Op.Lt, skipWsToks tr)
  | Token.ltEq :: tr => (Op.LtEq, skipWsToks tr)
  | Token.tilde :: tr => (Op.Tilde, skipWsToks tr)
  | Token.caret :: tr => (Op.Compatible, skipWsToks tr)
  | _ => (Op.Compatible, ts)

/-- Modelled from the spec: the major field, a mandatory numeric component;
the digit run is converted here and a value outside the unsigned 64-bit
range is a fatal overflow error. -/
def numericTok : List Token → Except Err (Nat × List Token)
  | Token.numeric s :: tr =>
    if valDigitsS s < 2 ^ 64 then .ok (valDigitsS s, tr)
    else .error (Err.overflow s)
  | t :: _ => .error (Err.unexpectedToken t)
  | [] => .error Err.unexpectedEnd

/-- Modelled from the spec: a version component, either a number (converted
with the same unsigned 64-bit overflow check as the major field) or a
wildcard marker; the boolean records that a wildcard elided the field. -/
def componentTok : List Token → Except Err (Option Nat × Bool × List Token)
  | Token.numeric s :: tr =>
    if valDigitsS s < 2 ^ 64 then .ok (some (valDigitsS s), false, tr)
    else .error (Err.overflow s)
  | Token.wildcard _ :: tr => .ok (none, true, tr)
  | t :: _ => .error (Err.unexpectedToken t)
  | [] => .error Err.unexpectedEnd

/-- Modelled from the spec: an optional dot-prefixed component; absent dot
means the field was omitted (None, not a wildcard). -/
def dotComponent (ts : List Token) : Except Err (Option Nat × Bool × List Token) :=
  match ts with
  | Token.dot :: tr => componentTok tr
  | _ => .ok (none, false, ts)

/-- Modelled from the spec: one pre-release or build identifier: an
alphanumeric run, a digit run (numeric identifier, same 64-bit check), or
a wildcard spelling other than star, which in identifier position is just
its alphanumeric text, case preserved. -/
def identTok : Token → Except Err Identifier
  | Token.alphaNum s => .ok (Identifier.AlphaNumeric s)
  | Token.numeric s =>
    if valDigitsS s < 2 ^ 64 then .ok (Identifier.Numeric (valDigitsS s))
    else .error (Err.overflow s)
  | Token.wildcard s =>
    if s = "*" then .error (Err.unexpectedToken (Token.wildcard s))
    else .ok (Identifier.AlphaNumeric s)
  | t => .error (Err.unexpectedToken t)

/-- Modelled from the spec: a non-empty dot-separated identifier list; the
end of input where an identifier is required is an error, so the returned
list always has at least one element. -/
def identifiers : List Token → Except Err (List Identifier × List Token)
  | [] => .error Err.unexpectedEnd
  | t :: tr =>
    match identTok t with
    | .error e => .error e
    | .ok i =>
      match tr with
      | Token.dot :: tr2 =>
        match identifiers tr2 with
        | .ok (l, rest) => .ok (i :: l, rest)
        | .error e => .error e
      | _ => .ok ([i], tr)

/-- Modelled from the spec: the optional pre-release suffix: a hyphen must
be followed by a non-empty dot-separated identifier list; no hyphen means
an empty pre list. -/
def parsePre : List Token → Except Err (List Identifier × List Token)
  | Token.hyphen :: tr => identifiers tr
  | ts => .ok (([] : List Identifier), ts)

/-- Modelled from the spec: the optional build-metadata suffix: a plus must
be followed by a non-empty dot-separated identifier list, which is
syntactically validated and then discarded. -/
def parseBuild : List Token → Except Err (List Token)
  | Token.plus :: tr =>
    match identifiers tr with
    | .ok (_, rest) => .ok rest
    | .error e => .error e
  | ts => .ok ts

/-- Modelled from the spec: parse one predicate.  Empty input and a bare
wildcard (after the optional operator) produce no predicate.  Otherwise:
operator (default Compatible), mandatory numeric major, two optional
dot-prefixed components, pre-release and build suffixes.  The wildcard
flags are applied in order, minor first, then patch, the later assignment
overwriting the earlier, so the first elided field determines the variant
unless both minor and patch were wildcards. -/
def predicateTok (ts : List Token) : Except Err (Option Predicate × List Token) :=
  match ts with
  | [] => .ok (none, [])
  | _ :: _ =>
    let (op0, ts1) := parseOp ts
    match ts1 with
    | Token.wildcard _ :: ts2 => .ok (none, ts2)
    | _ =>
      match numericTok ts1 with
      | .error e => .error e
      | .ok (major, ts2) =>
        match dotComponent ts2 with
        | .error e => .error e
        | .ok (minor, minorWild, ts3) =>
          match dotComponent ts3 with
          | .error e => .error e
          | .ok (patch, patchWild, ts4) =>
            match parsePre ts4 with
            | .error e => .error e
            | .ok (pre, ts5) =>
              match parseBuild ts5 with
              | .error e => .error e
              | .ok ts6 =>
                let op1 := if minorWild then Op.Wildcard WildcardVersion.Minor else op0
                let op2 := if patchWild then Op.Wildcard WildcardVersion.Patch else op1
                .ok (some ⟨op2, major, minor, patch, pre⟩, ts6)

/-- Modelled from the spec: the separator loop of the range parser: after a
predicate, an optional comma then optional whitespace (or whitespace
alone) may precede the next predicate; a comma with nothing after it is an
error.  Fuel bounds the recursion; the initial fuel, one more than the
token count, can never run out since every iteration consumes at least one
token. -/
def rangeMore : Nat → List Token → Except Err (List Predicate × List Token)
  | 0, _ => .error Err.unexpectedEnd
  | _ + 1, [] => .ok (([] : List Predicate), ([] : List Token))
  | fuel + 1, Token.comma :: tr =>
    match predicateTok (skipWsToks tr) with
    | .error e => .error e
    | .ok (none, _) => .error Err.unexpectedEnd
    | .ok (some p, tr2) =>
      match rangeMore fuel tr2 with
      | .ok (ps, rest) => .ok (p :: ps, rest)
      | .error e => .error e
  | fuel + 1, Token.whitespace :: tr =>
    let tr1 := skipWsToks tr
    match tr1 with
    | [] => .ok (([] : List Predicate), ([] : List Token))
    | _ :: _ =>
      match predicateTok tr1 with
      | .error e => .error e
      | .ok (none, tr2) => .ok (([] : List Predicate), tr2)
      | .ok (some p, tr2) =>
        match rangeMore fuel tr2 with
        | .ok (ps, rest) => .ok (p :: ps, rest)
        | .error e => .error e
  | _ + 1, ts => .ok (([] : List Predicate), ts)

/-- Modelled from the spec: parse a comma/whitespace-separated list of
predicates; a first predicate of None (blank or wildcard input) yields the
empty list. -/
def rangeTok (ts : List Token) : Except Err (List Predicate × List Token) :=
  match predicateTok ts with
  | .error e => .error e
  | .ok (none, tr) => .ok (([] : List Predicate), tr)
  | .ok (some p, tr) =>
    match rangeMore (tr.length + 1) tr with
    | .ok (ps, rest) => .ok (p :: ps, rest)
    | .error e => .error e

/-- Modelled from the spec: the Parser, a cursor over the token stream (the
parser file is not part of src/).  The remaining tokens are the state; the
head is the single token of lookahead. -/
structure Parser where
  tokens : List Token
deriving DecidableEq, Repr

/-- Modelled from the spec: construct a Parser over an input string by
tokenizing it (total, hence always Ok; the fallible signature mirrors the
call sites in src/range.rs). -/
def Parser.new (input : String) : Except Err Parser :=
  .ok ⟨lexChars input.data⟩

/-- Modelled from the spec: the Parser method parsing one predicate, as
called by src/range.rs. -/
def Parser.predicate (p : Parser) : Except Err (Option Predicate × Parser) :=
  match predicateTok p.tokens with
  | .ok (r, tr) => .ok (r, ⟨tr⟩)
  | .error e => .error e

/-- Modelled from the spec: the Parser method parsing a whole range, as
called by src/range.rs. -/
def Parser.range (p : Parser) : Except Err (VersionReq × Parser) :=
  match rangeTok p.tokens with
  | .ok (ps, tr) => .ok (⟨ps⟩, ⟨tr⟩)
  | .error e => .error e

/-- Modelled from the spec: whether all input has been consumed. -/
def Parser.is_eof (p : Parser) : Bool :=
  p.tokens.isEmpty

/-- Modelled from the spec: the unparsed tail, as a token list (fallible
signature mirroring the call sites in src/range.rs). -/
def Parser.tail (p : Parser) : Except Err (List Token) :=
  .ok p.tokens

/-- Entry point parsing a single Predicate (src/range.rs, parse_predicate):
build a Parser, parse one predicate, and if input remains return a
MoreInput error carrying the tail. -/
def parse_predicate (input : String) : Except Err (Option Predicate) :=
  match Parser.new input with
  | .error e => .error e
  | .ok p =>
    match p.predicate with
    | .error e => .error e
    | .ok (pred, p2) =>
      if !p2.is_eof then
        match p2.tail with
        | .error e => .error e
        | .ok t => .error (Err.moreInput t)
      else .ok pred

/-- Entry point parsing a VersionReq (src/range.rs, parse): build a Parser,
parse a range, and if input remains return a MoreInput error carrying the
tail. -/
def parse (input : String) : Except Err VersionReq :=
  match Parser.new input with
  | .error e => .error e
  | .ok p =>
    match p.range with
    | .error e => .error e
    | .ok (range, p2) =>
      if !p2.is_eof then
        match p2.tail with
        | .error e => .error e
        | .ok t => .error (Err.moreInput t)
      else .ok range

example : parse ("1.0.0") =
    .ok ⟨[⟨Op.Compatible, 1, some 0, some 0, []⟩]⟩ := rfl

example : parse ("1.*.0") =
    .ok ⟨[⟨Op.Wildcard WildcardVersion.Minor, 1, none, some 0, []⟩]⟩ := rfl

example : parse ("1.*.*") =
    .ok ⟨[⟨Op.Wildcard WildcardVersion.Patch, 1, none, none, []⟩]⟩ := rfl

example : parse ("") = .ok ⟨[]⟩ := rfl

example : parse ("*") = .ok ⟨[]⟩ := rfl

example : parse ("> 0.0.9, <= 2.5.3") =
    .ok ⟨[⟨Op.Gt, 0, some 0, some 9, []⟩, ⟨Op.LtEq, 2, some 5, some 3, []⟩]⟩ := rfl

example : parse ("<= 0.2.0 >= 0.5.0") =
    .ok ⟨[⟨Op.LtEq, 0, some 2, some 0, []⟩, ⟨Op.GtEq, 0, some 5, some 0, []⟩]⟩ := rfl

example : parse ("0-") = .error Err.unexpectedEnd := rfl

example : parse ("^1.2.3+meta") = parse ("^1.2.3") := rfl

example : (parse ("> 0.1.0,")).isOk = false := rfl

example : (parse ("18446744073709551617.0.0")).isOk = false := by decide

/-! Helper lemmas about the lexer. -/

lemma isAlphaNum_of_isDigit {c : Char} (h : isDigitChar c = true) :
    isAlphaNumChar c = true := by
  simp [isAlphaNumChar, h]

lemma ne_gt_of_alnum {c : Char} (h : isAlphaNumChar c = true) : c ≠ '>' := by
  rintro rfl
  simp [isAlphaNumChar, isDigitChar, isAlphaChar] at h

lemma ne_lt_of_alnum {c : Char} (h : isAlphaNumChar c = true) : c ≠ '<' := by
  rintro rfl
  simp [isAlphaNumChar, isDigitChar, isAlphaChar] at h

lemma lexAcc_cons_alnum (racc : List Char) (c : Char) (rest : List Char)
    (h : isAlphaNumChar c = true) :
    lexAcc racc (c :: rest) = lexAcc (c :: racc) rest := by
  rcases rest with _ | ⟨r, rest⟩
  · simp [lexAcc, h]
  · by_cases hr : r = '='
    · subst hr
      have h1 := ne_gt_of_alnum h
      have h2 := ne_lt_of_alnum h
      simp [lexAcc, h, h1, h2]
    · simp [lexAcc, h, hr]

lemma lexAcc_cons_sym (racc rest : List Char) (c : Char)
    (h1 : isAlphaNumChar c = false) (h2 : c ≠ '>') (h3 : c ≠ '<') :
    lexAcc racc (c :: rest) = flushRun racc (simpleTok c :: lexAcc [] rest) := by
  rcases rest with _ | ⟨r, rest⟩
  · simp [lexAcc, h1]
  · by_cases hr : r = '='
    · subst hr
      simp [lexAcc, h1, h2, h3]
    · simp [lexAcc, h1, hr]

lemma lexAcc_run (ds racc rest : List Char)
    (h : ∀ c ∈ ds, isAlphaNumChar c = true) :
    lexAcc racc (ds ++ rest) = lexAcc (ds.reverse ++ racc) rest := by
  induction ds generalizing racc with
  | nil => simp
  | cons d ds ih =>
    have hd := h d (by simp)
    rw [List.cons_append, lexAcc_cons_alnum _ _ _ hd,
      ih _ (fun c hc => h c (by simp [hc]))]
    simp

lemma flushRun_reverse (ds : List Char) (toks : List Token) (h : ds ≠ []) :
    flushRun ds.reverse toks = classifyRun ds :: toks := by
  rcases hrev : ds.reverse with _ | ⟨x, xs⟩
  · exact absurd (List.reverse_eq_nil_iff.mp hrev) h
  · show classifyRun (x :: xs).reverse :: toks = classifyRun ds :: toks
    rw [← hrev, List.reverse_reverse]

lemma classifyRun_digits (ds : List Char) (h1 : ds ≠ [])
    (h2 : ∀ c ∈ ds, isDigitChar c = true) :
    classifyRun ds = Token.numeric ⟨ds⟩ := by
  have hx : ds ≠ ['x'] := by
    rintro rfl
    exact absurd (h2 'x' (by simp)) (by decide)
  have hX : ds ≠ ['X'] := by
    rintro rfl
    exact absurd (h2 'X' (by simp)) (by decide)
  have hall : ds.all isDigitChar = true := by
    simpa [List.all_eq_true] using h2
  simp [classifyRun, hx, hX, hall]

lemma lexAcc_digits_nil (ds : List Char) (h1 : ds ≠ [])
    (h2 : ∀ c ∈ ds, isDigitChar c = true) :
    lexAcc [] ds = [Token.numeric ⟨ds⟩] := by
  have e := lexAcc_run ds [] [] (fun c hc => isAlphaNum_of_isDigit (h2 c hc))
  rw [List.append_nil] at e
  rw [e]
  show flushRun (ds.reverse ++ []) [] = _
  rw [List.append_nil, flushRun_reverse _ _ h1, classifyRun_digits _ h1 h2]

lemma lexAcc_dot (racc rest : List Char) :
    lexAcc racc ('.' :: rest) = flushRun racc (Token.dot :: lexAcc [] rest) := by
  rw [lexAcc_cons_sym _ _ _ (by decide) (by decide) (by decide)]
  rfl

lemma lexAcc_star (racc rest : List Char) :
    lexAcc racc ('*' :: rest) = flushRun racc (Token.wildcard ("*") :: lexAcc [] rest) := by
  rw [lexAcc_cons_sym _ _ _ (by decide) (by decide) (by decide)]
  rfl

/-! The claims. -/

/-- Claim C1: for every input denoting match-anything (the empty string,
star, lowercase x, uppercase X) the entry point parse returns Ok with an
empty predicates list and parse_predicate returns Ok None; none of these
inputs produces an error or a wildcard Predicate. -/
theorem match_anything_inputs :
    parse ("") = .ok ⟨[]⟩ ∧ parse ("*") = .ok ⟨[]⟩ ∧
    parse ("x") = .ok ⟨[]⟩ ∧ parse ("X") = .ok ⟨[]⟩ ∧
    parse_predicate ("") = .ok none ∧ parse_predicate ("*") = .ok none ∧
    parse_predicate ("x") = .ok none ∧ parse_predicate ("X") = .ok none :=
  ⟨rfl, rfl, rfl, rfl, rfl, rfl, rfl, rfl⟩

/-- Claim C2: a wildcard in the minor position followed by an explicit
numeric patch yields one Predicate with op Wildcard(Minor), minor None and
the patch captured normally; concretely for the input 1.*.0 and generally
for 1.*.p with any in-range digit run p. -/
theorem minor_wildcard_numeric_patch :
    parse ("1.*.0") =
      .ok ⟨[⟨Op.Wildcard WildcardVersion.Minor, 1, none, some 0, []⟩]⟩ ∧
    ∀ ds : List Char, ds ≠ [] → (∀ c ∈ ds, isDigitChar c = true) →
      valDigits ds < 2 ^ 64 →
      parse ⟨'1' :: '.' :: '*' :: '.' :: ds⟩ =
        .ok ⟨[⟨Op.Wildcard WildcardVersion.Minor, 1, none,
              some (valDigits ds), []⟩]⟩ := by
  refine ⟨rfl, ?_⟩
  intro ds h1 h2 h3
  have hds : lexAcc [] ds = [Token.numeric ⟨ds⟩] := lexAcc_digits_nil ds h1 h2
  have hlex : lexChars ('1' :: '.' :: '*' :: '.' :: ds) =
      [Token.numeric ("1"), Token.dot, Token.wildcard ("*"), Token.dot,
       Token.numeric ⟨ds⟩] := by
    rw [lexChars, lexAcc_cons_alnum _ _ _ (by decide), lexAcc_dot, lexAcc_star,
      lexAcc_dot, hds]
    rfl
  have e1 : valDigitsS ("1") = 1 := rfl
  have e2 : valDigitsS ⟨ds⟩ = valDigits ds := rfl
  have h4 : valDigits ds < 18446744073709551616 := by simpa using h3
  simp [parse, Parser.new, Parser.range, Parser.is_eof, Parser.tail, rangeTok,
    rangeMore, predicateTok, parseOp, numericTok, componentTok, dotComponent,
    parsePre, parseBuild, skipWsToks, hlex, e1, e2, h4]

/-- Witness for C2 at the digit run 7: parsing 1.*.7 gives Wildcard(Minor)
with minor None and patch Some 7. -/
theorem minor_wildcard_numeric_patch_witness :
    parse ⟨'1' :: '.' :: '*' :: '.' :: ['7']⟩ =
      .ok ⟨[⟨Op.Wildcard WildcardVersion.Minor, 1, none,
            some (valDigits ['7']), []⟩]⟩ :=
  minor_wildcard_numeric_patch.2 ['7'] (by decide) (by decide) (by decide)

/-- Claim C3: the input 1.*.* parses successfully to one Predicate
classified Wildcard(Patch) with minor None and patch None. -/
theorem double_wildcard_patch_variant :
    parse ("1.*.*") =
      .ok ⟨[⟨Op.Wildcard WildcardVersion.Patch, 1, none, none, []⟩]⟩ := rfl

/-- Claim C7: every valid major-only input, a bare in-range digit run,
parses to exactly one Predicate with op Compatible, that major, minor and
patch None and empty pre. -/
theorem major_only_compatible (ds : List Char) (h1 : ds ≠ [])
    (h2 : ∀ c ∈ ds, isDigitChar c = true) (h3 : valDigits ds < 2 ^ 64) :
    parse ⟨ds⟩ = .ok ⟨[⟨Op.Compatible, valDigits ds, none, none, []⟩]⟩ := by
  have hlex : lexChars ds = [Token.numeric ⟨ds⟩] := lexAcc_digits_nil ds h1 h2
  have h4 : valDigits ds < 18446744073709551616 := by simpa using h3
  simp [parse, Parser.new, Parser.range, Parser.is_eof, Parser.tail, rangeTok,
    rangeMore, predicateTok, parseOp, numericTok, dotComponent, parsePre,
    parseBuild, skipWsToks, valDigitsS, hlex, h4]

/-- Witness for C7 at the input 42. -/
theorem major_only_compatible_witness :
    parse ⟨['4', '2']⟩ =
      .ok ⟨[⟨Op.Compatible, valDigits ['4', '2'], none, none, []⟩]⟩ :=
  major_only_compatible ['4', '2'] (by decide) (by decide) (by decide)

/-- Claim C8: pre-release identifiers are stored exactly as written, in
order, with no case-folding; an X after the hyphen is an identifier, not a
wildcard. -/
theorem prerelease_case_preserved :
    parse ("=0.1.0-beta2.a") =
      .ok ⟨[⟨Op.Ex, 0, some 1, some 0,
            [Identifier.AlphaNumeric ("beta2"),
             Identifier.AlphaNumeric ("a")]⟩]⟩ ∧
    parse ("0-Foo") =
      .ok ⟨[⟨Op.Compatible, 0, none, none,
            [Identifier.AlphaNumeric ("Foo")]⟩]⟩ ∧
    parse ("0-X") =
      .ok ⟨[⟨Op.Compatible, 0, none, none,
            [Identifier.AlphaNumeric ("X")]⟩]⟩ :=
  ⟨rfl, rfl, rfl⟩

/-- Claim C9: a valid build-metadata suffix is accepted under each of the
seven operators and never stored: the result is Ok and equals the result
of parsing the same input with the plus suffix removed (the Predicate type
has no build field at all). -/
theorem build_metadata_discarded :
    parse ("^1.2.3+meta") = parse ("^1.2.3") ∧
    parse ("~1.2.3+meta") = parse ("~1.2.3") ∧
    parse ("=1.2.3+meta") = parse ("=1.2.3") ∧
    parse ("<=1.2.3+meta") = parse ("<=1.2.3") ∧
    parse (">=1.2.3+meta") = parse (">=1.2.3") ∧
    parse ("<1.2.3+meta") = parse ("<1.2.3") ∧
    parse (">1.2.3+meta") = parse (">1.2.3") ∧
    parse ("^1.2.3+meta") = .ok ⟨[⟨Op.Compatible, 1, some 2, some 3, []⟩]⟩ ∧
    parse ("~1.2.3+meta") = .ok ⟨[⟨Op.Tilde, 1, some 2, some 3, []⟩]⟩ ∧
    parse ("=1.2.3+meta") = .ok ⟨[⟨Op.Ex, 1, some 2, some 3, []⟩]⟩ ∧
    parse ("<=1.2.3+meta") = .ok ⟨[⟨Op.LtEq, 1, some 2, some 3, []⟩]⟩ ∧
    parse (">=1.2.3+meta") = .ok ⟨[⟨Op.GtEq, 1, some 2, some 3, []⟩]⟩ ∧
    parse ("<1.2.3+meta") = .ok ⟨[⟨Op.Lt, 1, some 2, some 3, []⟩]⟩ ∧
    parse (">1.2.3+meta") = .ok ⟨[⟨Op.Gt, 1, some 2, some 3, []⟩]⟩ :=
  ⟨rfl, rfl, rfl, rfl, rfl, rfl, rfl, rfl, rfl, rfl, rfl, rfl, rfl, rfl⟩

/-- Claim C4: a digit run in the major, minor or patch position whose value
exceeds the unsigned 64-bit range makes the whole parse fail, and all three
fields enforce the bound through the same conversion: the major and
component parsers reject any out-of-range run, any in-range surroundings
notwithstanding, and the three example inputs are errors. -/
theorem overflow_u64_error :
    (∀ (s : String) (tr : List Token), ¬ valDigitsS s < 2 ^ 64 →
      numericTok (Token.numeric s :: tr) = .error (Err.overflow s)) ∧
    (∀ (s : String) (tr : List Token), ¬ valDigitsS s < 2 ^ 64 →
      componentTok (Token.numeric s :: tr) = .error (Err.overflow s)) ∧
    (∀ ds : List Char, ds ≠ [] → (∀ c ∈ ds, isDigitChar c = true) →
      2 ^ 64 ≤ valDigits ds →
      parse ⟨ds ++ ('.' :: '0' :: '.' :: '0' :: [])⟩ =
        .error (Err.overflow ⟨ds⟩) ∧
      parse ⟨'0' :: '.' :: (ds ++ ('.' :: '0' :: []))⟩ =
        .error (Err.overflow ⟨ds⟩) ∧
      parse ⟨'0' :: '.' :: '0' :: '.' :: ds⟩ =
        .error (Err.overflow ⟨ds⟩)) ∧
    parse ("18446744073709551617.0.0") =
      .error (Err.overflow ("18446744073709551617")) ∧
    parse ("0.18446744073709551617.0") =
      .error (Err.overflow ("18446744073709551617")) ∧
    parse ("0.0.18446744073709551617") =
      .error (Err.overflow ("18446744073709551617")) := by
  refine ⟨?_, ?_, ?_, rfl, rfl, rfl⟩
  · intro s tr h
    have h2 : ¬ valDigitsS s < 18446744073709551616 := by simpa using h
    simp [numericTok, h2]
  · intro s tr h
    have h2 : ¬ valDigitsS s < 18446744073709551616 := by simpa using h
    simp [componentTok, h2]
  · intro ds h1 h2 h3
    have halnum : ∀ c ∈ ds, isAlphaNumChar c = true :=
      fun c hc => isAlphaNum_of_isDigit (h2 c hc)
    have e0 : valDigitsS ("0") = 0 := rfl
    have e2 : valDigitsS ⟨ds⟩ = valDigits ds := rfl
    have hov : ¬ valDigits ds < 18446744073709551616 := by
      simpa using Nat.not_lt.mpr h3
    refine ⟨?_, ?_, ?_⟩
    · have e := lexAcc_run ds [] ('.' :: '0' :: '.' :: '0' :: []) halnum
      rw [List.append_nil] at e
      have hlex : lexChars (ds ++ ('.' :: '0' :: '.' :: '0' :: [])) =
          Token.numeric ⟨ds⟩ :: Token.dot :: Token.numeric ("0") ::
            Token.dot :: Token.numeric ("0") :: [] := by
        rw [lexChars, e, lexAcc_dot, flushRun_reverse _ _ h1,
          classifyRun_digits _ h1 h2]
        rfl
      simp [parse, Parser.new, Parser.range, rangeTok, predicateTok, parseOp,
        numericTok, hlex, e2, hov]
    · have e := lexAcc_run ds [] ('.' :: '0' :: []) halnum
      rw [List.append_nil] at e
      have hlex : lexChars ('0' :: '.' :: (ds ++ ('.' :: '0' :: []))) =
          Token.numeric ("0") :: Token.dot :: Token.numeric ⟨ds⟩ ::
            Token.dot :: Token.numeric ("0") :: [] := by
        rw [lexChars, lexAcc_cons_alnum _ _ _ (by decide), lexAcc_dot, e,
          lexAcc_dot, flushRun_reverse _ _ h1, classifyRun_digits _ h1 h2]
        rfl
      simp [parse, Parser.new, Parser.range, rangeTok, predicateTok, parseOp,
        numericTok, componentTok, dotComponent, hlex, e0, e2, hov]
    · have hlex : lexChars ('0' :: '.' :: '0' :: '.' :: ds) =
          Token.numeric ("0") :: Token.dot :: Token.numeric ("0") ::
            Token.dot :: Token.numeric ⟨ds⟩ :: [] := by
        rw [lexChars, lexAcc_cons_alnum _ _ _ (by decide), lexAcc_dot,
          lexAcc_cons_alnum _ _ _ (by decide), lexAcc_dot,
          lexAcc_digits_nil ds h1 h2]
        rfl
      simp [parse, Parser.new, Parser.range, rangeTok, predicateTok, parseOp,
        numericTok, componentTok, dotComponent, hlex, e0, e2, hov]

/-- Witness for C4: the run 18446744073709551616 (one past the maximum)
is rejected by the field parser, and the example major overflow input is
an error. -/
theorem overflow_u64_error_witness :
    numericTok [Token.numeric ("18446744073709551616")] =
      .error (Err.overflow ("18446744073709551616")) ∧
    parse ⟨("18446744073709551617").data ++ ('.' :: '0' :: '.' :: '0' :: [])⟩ =
      .error (Err.overflow ("18446744073709551617")) := by
  constructor
  · exact overflow_u64_error.1 ("18446744073709551616") [] (by decide)
  · exact (overflow_u64_error.2.2.1 (("18446744073709551617").data)
      (by decide) (by decide) (by decide)).1

/-- Claim C5: whenever the top-level predicate or range parse completes
with unconsumed tokens remaining, the entry points return a MoreInput
error carrying that tail; they never return Ok while input remains. -/
theorem trailing_input_more_input :
    (∀ (input : String) (p0 : Parser) (pred : Option Predicate) (p1 : Parser),
      Parser.new input = .ok p0 → p0.predicate = .ok (pred, p1) →
      p1.tokens ≠ [] →
      parse_predicate input = .error (Err.moreInput p1.tokens)) ∧
    (∀ (input : String) (p0 : Parser) (req : VersionReq) (p1 : Parser),
      Parser.new input = .ok p0 → p0.range = .ok (req, p1) →
      p1.tokens ≠ [] →
      parse input = .error (Err.moreInput p1.tokens)) ∧
    (∀ (input : String) (p0 : Parser) (pred : Option Predicate) (p1 : Parser)
      (r : Option Predicate),
      Parser.new input = .ok p0 → p0.predicate = .ok (pred, p1) →
      parse_predicate input = .ok r → p1.tokens = []) ∧
    (∀ (input : String) (p0 : Parser) (req : VersionReq) (p1 : Parser)
      (r : VersionReq),
      Parser.new input = .ok p0 → p0.range = .ok (req, p1) →
      parse input = .ok r → p1.tokens = []) := by
  have hemp : ∀ p1 : Parser, p1.tokens ≠ [] → p1.is_eof = false := by
    intro p1 h3
    rcases htk : p1.tokens with _ | ⟨a, as⟩
    · exact absurd htk h3
    · simp [Parser.is_eof, htk]
  have hp : ∀ (input : String) (p0 : Parser) (pred : Option Predicate)
      (p1 : Parser),
      Parser.new input = .ok p0 → p0.predicate = .ok (pred, p1) →
      p1.tokens ≠ [] →
      parse_predicate input = .error (Err.moreInput p1.tokens) := by
    intro input p0 pred p1 h1 h2 h3
    simp only [parse_predicate, h1, h2]
    simp [hemp p1 h3, Parser.tail]
  have hr : ∀ (input : String) (p0 : Parser) (req : VersionReq) (p1 : Parser),
      Parser.new input = .ok p0 → p0.range = .ok (req, p1) →
      p1.tokens ≠ [] →
      parse input = .error (Err.moreInput p1.tokens) := by
    intro input p0 req p1 h1 h2 h3
    simp only [parse, h1, h2]
    simp [hemp p1 h3, Parser.tail]
  refine ⟨hp, hr, ?_, ?_⟩
  · intro input p0 pred p1 r h1 h2 hok
    by_contra h3
    rw [hp input p0 pred p1 h1 h2 h3] at hok
    exact Except.noConfusion hok
  · intro input p0 req p1 r h1 h2 hok
    by_contra h3
    rw [hr input p0 req p1 h1 h2 h3] at hok
    exact Except.noConfusion hok

/-- Witness for C5: a wildcard predicate followed by a stray bracket: both
entry points report MoreInput carrying the bracket token. -/
theorem trailing_input_more_input_witness :
    parse_predicate ("*]") = .error (Err.moreInput [Token.unexpected (']')]) ∧
    parse ("*]") = .error (Err.moreInput [Token.unexpected (']')]) := by
  constructor
  · exact trailing_input_more_input.1 ("*]")
      ⟨[Token.wildcard ("*"), Token.unexpected (']')]⟩ none
      ⟨[Token.unexpected (']')]⟩ rfl rfl (by decide)
  · exact trailing_input_more_input.2.1 ("*]")
      ⟨[Token.wildcard ("*"), Token.unexpected (']')]⟩ ⟨[]⟩
      ⟨[Token.unexpected (']')]⟩ rfl rfl (by decide)

/-- Claim C6: a hyphen with no following non-empty identifier segment is a
parse error, never a Predicate with an empty pre list: the example inputs
are errors, and the identifier-list parser and the pre-release parser can
only succeed with a non-empty list. -/
theorem empty_prerelease_error :
    parse ("0-") = .error Err.unexpectedEnd ∧
    parse ("1.0.0-") = .error Err.unexpectedEnd ∧
    parse_predicate ("0-") = .error Err.unexpectedEnd ∧
    parse_predicate ("1.0.0-") = .error Err.unexpectedEnd ∧
    (∀ (ts : List Token) (l : List Identifier) (rest : List Token),
      identifiers ts = .ok (l, rest) → l ≠ []) ∧
    (∀ (ts : List Token) (l : List Identifier) (rest : List Token),
      parsePre (Token.hyphen :: ts) = .ok (l, rest) → l ≠ []) := by
  have hid : ∀ (ts : List Token) (l : List Identifier) (rest : List Token),
      identifiers ts = .ok (l, rest) → l ≠ [] := by
    intro ts l rest h
    rcases ts with _ | ⟨t, tr⟩
    · simp [identifiers] at h
    · unfold identifiers at h
      split at h
      · exact Except.noConfusion h
      · split at h
        · split at h
          · obtain ⟨hl, -⟩ := by simpa using h
            rw [← hl]
            simp
          · exact Except.noConfusion h
        · obtain ⟨hl, -⟩ := by simpa using h
          rw [← hl]
          simp
  refine ⟨rfl, rfl, rfl, rfl, hid, ?_⟩
  intro ts l rest h
  exact hid ts l rest (by simpa [parsePre] using h)

/-- Witness for C6: a one-identifier pre-release list is non-empty. -/
theorem empty_prerelease_error_witness :
    ([Identifier.AlphaNumeric ("beta")] : List Identifier) ≠ [] :=
  empty_prerelease_error.2.2.2.2.1 [Token.alphaNum ("beta")]
    [Identifier.AlphaNumeric ("beta")] [] rfl

/-- Claim C10: Op.from_str succeeds on exactly the seven operator strings
with the stated results; every other string, the wildcard spellings, the
empty string and padded forms included, is an error, and the Wildcard
variant is never produced. -/
theorem op_from_str_exactly_seven :
    Op.from_str ("=") = .ok Op.Ex ∧ Op.from_str (">") = .ok Op.Gt ∧
    Op.from_str (">=") = .ok Op.GtEq ∧ Op.from_str ("<") = .ok Op.Lt ∧
    Op.from_str ("<=") = .ok Op.LtEq ∧ Op.from_str ("~") = .ok Op.Tilde ∧
    Op.from_str ("^") = .ok Op.Compatible ∧
    Op.from_str ("*") = .error ("Could not parse Op") ∧
    Op.from_str ("x") = .error ("Could not parse Op") ∧
    Op.from_str ("X") = .error ("Could not parse Op") ∧
    Op.from_str ("") = .error ("Could not parse Op") ∧
    Op.from_str (" =") = .error ("Could not parse Op") ∧
    (∀ s : String, s ≠ "=" → s ≠ ">" → s ≠ ">=" → s ≠ "<" → s ≠ "<=" →
      s ≠ "~" → s ≠ "^" → Op.from_str s = .error ("Could not parse Op")) ∧
    (∀ (s : String) (w : WildcardVersion),
      Op.from_str s ≠ .ok (Op.Wildcard w)) := by
  have hgen : ∀ s : String, s ≠ "=" → s ≠ ">" → s ≠ ">=" → s ≠ "<" →
      s ≠ "<=" → s ≠ "~" → s ≠ "^" →
      Op.from_str s = .error ("Could not parse Op") := by
    intro s h1 h2 h3 h4 h5 h6 h7
    unfold Op.from_str
    rw [if_neg h1, if_neg h2, if_neg h3, if_neg h4, if_neg h5, if_neg h6,
      if_neg h7]
  have hwild : ∀ (s : String) (w : WildcardVersion),
      Op.from_str s ≠ .ok (Op.Wildcard w) := by
    intro s w h
    by_cases h1 : s = "="
    · subst h1; exact Op.noConfusion (Except.ok.inj h)
    by_cases h2 : s = ">"
    · subst h2; exact Op.noConfusion (Except.ok.inj h)
    by_cases h3 : s = ">="
    · subst h3; exact Op.noConfusion (Except.ok.inj h)
    by_cases h4 : s = "<"
    · subst h4; exact Op.noConfusion (Except.ok.inj h)
    by_cases h5 : s = "<="
    · subst h5; exact Op.noConfusion (Except.ok.inj h)
    by_cases h6 : s = "~"
    · subst h6; exact Op.noConfusion (Except.ok.inj h)
    by_cases h7 : s = "^"
    · subst h7; exact Op.noConfusion (Except.ok.inj h)
    rw [hgen s h1 h2 h3 h4 h5 h6 h7] at h
    exact Except.noConfusion h
  exact ⟨rfl, rfl, rfl, rfl, rfl, rfl, rfl, rfl, rfl, rfl, rfl, rfl, hgen,
    hwild⟩

/-- Witness for C10: an arbitrary other string is an error, and a
non-operator string is never parsed to a wildcard operation. -/
theorem op_from_str_exactly_seven_witness :
    Op.from_str ("|") = .error ("Could not parse Op") ∧
    Op.from_str ("=x") ≠ .ok (Op.Wildcard WildcardVersion.Minor) := by
  constructor
  · exact op_from_str_exactly_seven.2.2.2.2.2.2.2.2.2.2.2.2.1 ("|")
      (by decide) (by decide) (by decide) (by decide) (by decide) (by decide)
      (by decide)
  · exact op_from_str_exactly_seven.2.2.2.2.2.2.2.2.2.2.2.2.2 ("=x")
      WildcardVersion.Minor
